import Mathlib

/-!
Verification of the pdf-viewer-server repository (src/server.py).

The Python program is shallowly embedded: the global dictionaries
`sessions` and `pdf_cache` become insertion-ordered association lists
(Python dicts preserve insertion order, and assignment to an existing
key keeps its position), the on-disk page directories under `temp_pages`
become an association list from session id to the list of stored file
names, timestamps are integers, and the external world (the pdf files
on disk, rmtree failures) is passed in as explicit oracles.  Fallible
operations return `Except String`, mirroring raised exceptions whose
`str(e)` is the carried message.
-/

namespace PdfViewer

/-! ## Association lists modelling Python dicts -/

/-- Python dict lookup `l[k]` / `l.get(k)` on an insertion-ordered
association list. -/
def alookup {β : Type} (k : String) : List (String × β) → Option β
  | [] => none
  | (k', v) :: rest => if k' = k then some v else alookup k rest

/-- Python dict assignment `l[k] = v`: replaces in place when the key is
present, appends otherwise. -/
def ainsert {β : Type} (k : String) (v : β) : List (String × β) → List (String × β)
  | [] => [(k, v)]
  | (k', v') :: rest => if k' = k then (k, v) :: rest else (k', v') :: ainsert k v rest

/-- Python `del l[k]` (also used for recursive directory removal in the
filesystem model). -/
def aremove {β : Type} (k : String) (l : List (String × β)) : List (String × β) :=
  l.filter (fun p => decide (p.1 ≠ k))

/-! ## Data model -/

/-- A pdf file as the external pymupdf library exposes it: the four
metadata entries that `load_pdf` reads (absent entries modelled by
`none`) and the page rectangles, one per page, as point dimensions.
`doc.page_count` is by construction the number of pages. -/
structure PdfDoc where
  title : Option String
  author : Option String
  subject : Option String
  creator : Option String
  pageRects : List (Nat × Nat)
deriving Repr, DecidableEq

/-- `doc.page_count` of pymupdf. -/
def PdfDoc.page_count (d : PdfDoc) : Nat := d.pageRects.length

/-- What a path on disk resolves to: no file, an unparseable file, or a
pdf document. -/
inductive DiskEntry
  | absent
  | corrupt
  | pdf (d : PdfDoc)
deriving Repr, DecidableEq

/-- The metadata dict built at src/server.py lines 68-74. -/
structure Metadata where
  title : String
  author : String
  subject : String
  creator : String
  pages : Nat
deriving Repr, DecidableEq

/-- One entry of the global `pdf_cache` dict (the `pdf_info` dict built
in `load_pdf`, lines 64-75): the opened document handle, the page count,
the path and the metadata. -/
structure PdfInfoEntry where
  doc : PdfDoc
  total_pages : Nat
  path : String
  metadata : Metadata
deriving Repr, DecidableEq

/-- One entry of the global `sessions` dict (created in
`handle_connect`, lines 264-268). -/
structure Session where
  sid : String
  current_pdf : Option String
  last_activity : Int
deriving Repr, DecidableEq

/-- The mutable global state of the server: the `sessions` dict, the
`pdf_cache` dict, and the on-disk session page directories under
`temp_pages` (session id mapped to the file names stored in its
directory). -/
structure ServerState where
  sessions : List (String × Session)
  pdf_cache : List (String × PdfInfoEntry)
  temp : List (String × List String)
deriving Repr, DecidableEq

/-- The state at process start: nothing stored. -/
def initState : ServerState := ⟨[], [], []⟩

/-! ## DocumentCache: PDFProcessor.load_pdf (lines 53-83)

Returns the info entry, the updated cache, and whether the file was
actually opened and parsed (`fitz.open` was reached), so that cache
hits are observable.  Errors carry the exception message. -/

def load_pdf (disk : String → DiskEntry) (cache : List (String × PdfInfoEntry))
    (pdf_path : String) :
    Except String (PdfInfoEntry × List (String × PdfInfoEntry) × Bool) :=
  match alookup pdf_path cache with
  | some info => .ok (info, cache, false)
  | none =>
    match disk pdf_path with
    | .absent => .error "no such file"
    | .corrupt => .error "cannot open document"
    | .pdf d =>
      let info : PdfInfoEntry :=
        { doc := d
          total_pages := d.page_count
          path := pdf_path
          metadata :=
            { title := d.title.getD "Untitled"
              author := d.author.getD "Unknown"
              subject := d.subject.getD ""
              creator := d.creator.getD ""
              pages := d.page_count } }
      .ok (info, ainsert pdf_path info cache, true)

/-! ## PageRenderer: PDFProcessor.render_page (lines 86-122) -/

/-- Line 93: `zoom = 2.0 if quality == 'high' else 1.5`. -/
def zoomFor (quality : String) : ℚ := if quality = "high" then 2 else 3 / 2

/-- Line 103: `target_size = 1024 if quality == 'high' else 768`. -/
def targetSize (quality : String) : Nat := if quality = "high" then 1024 else 768

/-- `doc.load_page(idx)` of pymupdf: an integer index in
`[-page_count, page_count)` is accepted, negative values counting
backwards from the end; anything else raises. Returns the page point
dimensions. -/
def loadPagePy (doc : PdfDoc) (idx : Int) : Option (Nat × Nat) :=
  if 0 ≤ idx ∧ idx < (doc.page_count : Int) then
    doc.pageRects[idx.toNat]?
  else if -(doc.page_count : Int) ≤ idx ∧ idx < 0 then
    doc.pageRects[(idx + doc.page_count).toNat]?
  else
    none

/-- Pixmap dimensions produced by rasterising a page of the given point
dimensions at the magnification of the quality tier (line 97): the
point dimensions scaled by the zoom factor, rounded down.  Stated over
naturals so it evaluates; `pixDims_eq_floor` proves it agrees with
flooring the rational magnification `zoomFor`. -/
def pixDims (d : Nat × Nat) (quality : String) : Nat × Nat :=
  if quality = "high" then (2 * d.1, 2 * d.2) else (3 * d.1 / 2, 3 * d.2 / 2)

/-- The dimension computation of PIL `Image.thumbnail((t, t))`
(line 104), in exact arithmetic: unchanged when the image already fits,
otherwise scaled down preserving the aspect ratio, the scaled dimension
floored and clamped below at 1. -/
def thumbnailDims (w h t : Nat) : Nat × Nat :=
  if t ≥ w ∧ t ≥ h then (w, h)
  else if h ≥ w then (max (t * w / h) 1, t)
  else (t, max (t * h / w) 1)

/-- The dict returned by `render_page` (lines 111-118). The png byte
strings are modelled by an opaque tag determined by the output
dimensions. -/
structure RenderedPage where
  page_num : Int
  width : Nat
  height : Nat
  image_data : String
  image_base64 : String
  timestamp : Int
deriving Repr, DecidableEq

/-- Abstract stand-in for the png bytes of line 108. -/
def pngBytes (w h : Nat) : String :=
  "PNG:" ++ toString w ++ "x" ++ toString h

/-- PDFProcessor.render_page (lines 86-122): load the page with the
0-based index `page_num - 1`, rasterise at the quality magnification,
downscale with `thumbnail`, and return the page dict.  A failing
`load_page` surfaces as the caught exception message. -/
def render_page (doc : PdfDoc) (page_num : Int) (quality : String) (now : Int) :
    Except String RenderedPage :=
  match loadPagePy doc (page_num - 1) with
  | none => .error "page not in document"
  | some d =>
    let pix := pixDims d quality
    let out := thumbnailDims pix.1 pix.2 (targetSize quality)
    .ok { page_num := page_num
          width := out.1
          height := out.2
          image_data := pngBytes out.1 out.2
          image_base64 := "base64:" ++ pngBytes out.1 out.2
          timestamp := now }

/-! ## ImageStore: PDFProcessor.save_page_image (lines 124-143)

Creates the per-session directory if needed, writes (overwriting)
`page_{n}.png`, and returns the url path. -/

def save_page_image (temp : List (String × List String)) (sid : String)
    (page_num : Int) : String × List (String × List String) :=
  let filename := "page_" ++ toString page_num ++ ".png"
  let files := (alookup sid temp).getD []
  let files' := if files.contains filename then files else files ++ [filename]
  ("/pages/" ++ sid ++ "/" ++ filename, ainsert sid files' temp)

/-! ## ProtocolGateway: the socket event handlers (lines 260-418) -/

/-- An entry of the `pages` list emitted by `handle_preload_pages`
(lines 400-406). -/
structure PageEntry where
  pageNum : Int
  width : Nat
  height : Nat
  imageUrl : String
  timestamp : Int
deriving Repr, DecidableEq

/-- The successful `pageData` payload emitted by `handle_request_page`
(lines 352-359). -/
structure PagePayload where
  pageNum : Int
  width : Nat
  height : Nat
  imageUrl : String
  imageBase64 : String
  timestamp : Int
deriving Repr, DecidableEq

/-- The structured payloads the server emits over the socket. -/
inductive Response
  | connected (session_id : String) (message : String)
  | pdfLoadedOk (pdfId : String) (totalPages : Nat) (metadata : Metadata)
  | pdfLoadedErr (error : String)
  | pageData (p : PagePayload)
  | pageDataErr (error : String)
  | pagesPreloaded (pages : List PageEntry)
  | pagesPreloadedErr (error : String)
  | pong (timestamp : Int)
deriving Repr, DecidableEq

/-- `next((s for s in sessions.values() if s.get('sid')), None)`
(lines 299, 328, 376): the first session record, in dict insertion
order, whose `sid` entry is truthy (a nonempty string).  Note that this
is NOT the session of the connection that issued the event. -/
def firstSession (l : List (String × Session)) : Option Session :=
  (l.map Prod.snd).find? (fun s => decide (s.sid ≠ ""))

/-- The in-place mutation `session_data['current_pdf'] = pdf_path`
applied to the record `firstSession` finds (lines 299-301). -/
def bindFirst (p : String) : List (String × Session) → List (String × Session)
  | [] => []
  | (k, s) :: rest =>
    if s.sid ≠ "" then (k, { s with current_pdf := some p }) :: rest
    else (k, s) :: bindFirst p rest

/-- handle_connect (lines 260-274): install a fresh session record with
no bound document and the current time, and emit `connected`.  The
generated token is supplied as an oracle. -/
def handle_connect (st : ServerState) (now : Int) (newSid : String) :
    ServerState × Response :=
  ({ st with sessions := ainsert newSid ⟨newSid, none, now⟩ st.sessions },
   .connected newSid "Connected to PDF viewer server")

/-- handle_load_pdf (lines 281-317): resolve the id to
`pdfs/{id}.pdf`, fail when the file is absent, load through the cache,
bind the found session record, and emit `pdfLoaded`. -/
def handle_load_pdf (disk : String → DiskEntry) (st : ServerState) (_now : Int)
    (pdfId : String) : ServerState × Response :=
  let pdf_path := "pdfs/" ++ pdfId ++ ".pdf"
  match disk pdf_path with
  | .absent => (st, .pdfLoadedErr "PDF file not found")
  | _ =>
    match load_pdf disk st.pdf_cache pdf_path with
    | .error e => (st, .pdfLoadedErr e)
    | .ok (info, cache', _) =>
      ({ st with pdf_cache := cache', sessions := bindFirst pdf_path st.sessions },
       .pdfLoadedOk pdfId info.total_pages info.metadata)

/-- Result of a page event: the new state, the emitted response, and
the page numbers for which `render_page` was entered (so that render
attempts are observable). -/
structure ReqResult where
  state : ServerState
  response : Response
  renderCalls : List Int
deriving Repr, DecidableEq

/-- handle_request_page (lines 319-365).  Note that `page_num` is
passed to the renderer without any range validation. -/
def handle_request_page (disk : String → DiskEntry) (st : ServerState) (now : Int)
    (pageNum : Int) (quality : String) : ReqResult :=
  match firstSession st.sessions with
  | none => ⟨st, .pageDataErr "No PDF loaded", []⟩
  | some sd =>
    match sd.current_pdf with
    | none => ⟨st, .pageDataErr "No PDF loaded", []⟩
    | some pdf_path =>
      match load_pdf disk st.pdf_cache pdf_path with
      | .error e => ⟨st, .pageDataErr e, []⟩
      | .ok (info, cache', _) =>
        match render_page info.doc pageNum quality now with
        | .error e => ⟨{ st with pdf_cache := cache' }, .pageDataErr e, [pageNum]⟩
        | .ok pd =>
          let saved := save_page_image st.temp sd.sid pageNum
          ⟨{ st with pdf_cache := cache', temp := saved.2 },
           .pageData { pageNum := pd.page_num
                       width := pd.width
                       height := pd.height
                       imageUrl := "http://localhost:5000" ++ saved.1
                       imageBase64 := pd.image_base64
                       timestamp := pd.timestamp },
           [pageNum]⟩

/-- The loop of handle_preload_pages (lines 384-406): skip numbers
outside `[1, total_pages]`, render and persist the others, collecting
the emitted entries in order.  A render failure escapes to the outer
exception handler, the files written so far remaining on disk. -/
def preloadLoop (doc : PdfDoc) (total : Nat) (sid : String) (quality : String)
    (now : Int) :
    List Int → List PageEntry → List (String × List String) →
    Except String (List PageEntry) × List (String × List String)
  | [], acc, temp => (.ok acc, temp)
  | n :: rest, acc, temp =>
    if 1 ≤ n ∧ n ≤ (total : Int) then
      match render_page doc n quality now with
      | .error e => (.error e, temp)
      | .ok pd =>
        let saved := save_page_image temp sid n
        preloadLoop doc total sid quality now rest
          (acc ++ [{ pageNum := pd.page_num
                     width := pd.width
                     height := pd.height
                     imageUrl := "http://localhost:5000" ++ saved.1
                     timestamp := pd.timestamp }]) saved.2
    else
      preloadLoop doc total sid quality now rest acc temp

/-- handle_preload_pages (lines 367-413). -/
def handle_preload_pages (disk : String → DiskEntry) (st : ServerState) (now : Int)
    (pageNums : List Int) (quality : String) : ReqResult :=
  match firstSession st.sessions with
  | none => ⟨st, .pagesPreloadedErr "No PDF loaded", []⟩
  | some sd =>
    match sd.current_pdf with
    | none => ⟨st, .pagesPreloadedErr "No PDF loaded", []⟩
    | some pdf_path =>
      match load_pdf disk st.pdf_cache pdf_path with
      | .error e => ⟨st, .pagesPreloadedErr e, []⟩
      | .ok (info, cache', _) =>
        match preloadLoop info.doc info.total_pages sd.sid quality now pageNums [] st.temp with
        | (.error e, temp') =>
          ⟨{ st with pdf_cache := cache', temp := temp' }, .pagesPreloadedErr e,
           pageNums.filter (fun n => decide (1 ≤ n) && decide (n ≤ (info.total_pages : Int)))⟩
        | (.ok pages, temp') =>
          ⟨{ st with pdf_cache := cache', temp := temp' }, .pagesPreloaded pages,
           pageNums.filter (fun n => decide (1 ≤ n) && decide (n ≤ (info.total_pages : Int)))⟩

/-- handle_ping (lines 415-418): emit `pong` with the current time.  No
session record is read or written. -/
def handle_ping (st : ServerState) (now : Int) : ServerState × Response :=
  (st, .pong now)

/-! ## CleanupScheduler: cleanup_old_sessions (lines 424-440)

The loop iterates over a snapshot `list(sessions.items())`; for each
record idle longer than 30 minutes it removes the session directory
when one exists (an `rmtree` failure raises, and the single
try/except around the WHOLE loop then abandons the rest of the sweep,
keeping the state mutated so far) and deletes the record. -/

/-- The idleness test of line 431: `current_time - last_activity >
30 * 60`. -/
def expired (now : Int) (s : Session) : Bool := decide (now - s.last_activity > 1800)

/-- The `for` loop of lines 430-438, iterating over the snapshot while
mutating the live state; `rmFail` tells which directory removals
raise. -/
def cleanupGo (rmFail : String → Bool) (now : Int) :
    List (String × Session) → ServerState → ServerState
  | [], st => st
  | (sid, sd) :: rest, st =>
    if expired now sd then
      if (alookup sid st.temp).isSome then
        if rmFail sid then st
        else cleanupGo rmFail now rest
          { st with sessions := aremove sid st.sessions, temp := aremove sid st.temp }
      else cleanupGo rmFail now rest { st with sessions := aremove sid st.sessions }
    else cleanupGo rmFail now rest st

/-- cleanup_old_sessions (lines 424-440). -/
def cleanup_old_sessions (rmFail : String → Bool) (now : Int) (st : ServerState) :
    ServerState :=
  cleanupGo rmFail now st.sessions st

/-- The net effect of a failure-free sweep on the page directories:
remove the directory of every expired session in the table. -/
def rmExpiredFold (now : Int) (l : List (String × Session))
    (t : List (String × List String)) : List (String × List String) :=
  l.foldl (fun t p => if expired now p.2 then aremove p.1 t else t) t

/-! ## Events and traces -/

/-- The inbound socket events plus the periodic cleanup task.  Oracle
data (the generated session token, the rmtree failure set) rides on the
event. -/
inductive Event
  | connect (newSid : String)
  | loadPDF (pdfId : String)
  | requestPage (pageNum : Int) (quality : String)
  | preloadPages (pageNums : List Int) (quality : String)
  | ping
  | cleanup (rmFail : String → Bool)

/-- State transition of one event at one instant. -/
def step (disk : String → DiskEntry) (st : ServerState) (ev : Event) (now : Int) :
    ServerState :=
  match ev with
  | .connect sid => (handle_connect st now sid).1
  | .loadPDF pdfId => (handle_load_pdf disk st now pdfId).1
  | .requestPage n q => (handle_request_page disk st now n q).state
  | .preloadPages ns q => (handle_preload_pages disk st now ns q).state
  | .ping => (handle_ping st now).1
  | .cleanup rmFail => cleanup_old_sessions rmFail now st

/-- Run a timed event trace from a state. -/
def runEvents (disk : String → DiskEntry) (st : ServerState)
    (evs : List (Event × Int)) : ServerState :=
  evs.foldl (fun s e => step disk s e.1 e.2) st

/-! ## Emitted payload fields

The dict literals at lines 352-359 (`pageData`) and 400-406 (a
`pagesPreloaded` entry), as ordered field lists, so the wire shape of
the payloads is explicit. -/

/-- The wire fields of one preloaded page entry (lines 400-406). -/
def pageEntryEmit (e : PageEntry) : List (String × String) :=
  [("pageNum", toString e.pageNum), ("width", toString e.width),
   ("height", toString e.height), ("imageUrl", e.imageUrl),
   ("timestamp", toString e.timestamp)]

/-- The wire fields of a successful `pageData` payload (lines 352-359). -/
def pageDataEmit (p : PagePayload) : List (String × String) :=
  [("pageNum", toString p.pageNum), ("width", toString p.width),
   ("height", toString p.height), ("imageUrl", p.imageUrl),
   ("imageBase64", p.imageBase64), ("timestamp", toString p.timestamp)]

/-! ## Concrete sample world used by witnesses -/

/-- A three-page document with some metadata entries absent. -/
def sampleDoc : PdfDoc :=
  { title := some "T", author := none, subject := some "S", creator := none,
    pageRects := [(100, 200), (300, 150), (50, 60)] }

def samplePath : String := "pdfs/sample.pdf"

/-- A disk holding exactly the sample document. -/
def sampleDisk : String → DiskEntry :=
  fun p => if p = samplePath then .pdf sampleDoc else .absent

/-- The cache entry `load_pdf` builds for the sample document. -/
def sampleInfo : PdfInfoEntry :=
  { doc := sampleDoc, total_pages := 3, path := samplePath,
    metadata := { title := "T", author := "Unknown", subject := "S",
                  creator := "", pages := 3 } }

/-- A state in which one session is bound to the sample document and
the cache holds its entry. -/
def sampleSt : ServerState :=
  { sessions := [("s1", ⟨"s1", some samplePath, 0⟩)],
    pdf_cache := [(samplePath, sampleInfo)],
    temp := [] }

/-- The render result for page 1 of the sample document at quality
high. -/
def sampleRendered : RenderedPage :=
  { page_num := 1, width := 200, height := 400, image_data := "PNG:200x400",
    image_base64 := "base64:PNG:200x400", timestamp := 0 }

/-- A table holding only the session of connection B. -/
def stateB : ServerState := ⟨[("B", ⟨"B", none, 0⟩)], [], []⟩

/-- The same table with the record of another connection A inserted
before B. -/
def stateAB : ServerState := ⟨[("A", ⟨"A", none, 0⟩), ("B", ⟨"B", none, 0⟩)], [], []⟩

/-- Two sessions, both idle since time 0, both with an on-disk page
directory. -/
def st4 : ServerState :=
  ⟨[("E1", ⟨"E1", none, 0⟩), ("E2", ⟨"E2", none, 0⟩)], [],
   [("E1", ["page_1.png"]), ("E2", ["page_1.png"])]⟩

/-- The entry the sample preload of page 1 at quality medium emits. -/
def samplePageEntry : PageEntry :=
  { pageNum := 1, width := 150, height := 300,
    imageUrl := "http://localhost:5000/pages/s1/page_1.png", timestamp := 10 }

/-- The payload the sample request of page 1 at quality high emits. -/
def samplePagePayload : PagePayload :=
  { pageNum := 1, width := 200, height := 400,
    imageUrl := "http://localhost:5000/pages/s1/page_1.png",
    imageBase64 := "base64:PNG:200x400", timestamp := 10 }

/-- One session idle since time 0 and one active at time 1700, both
with a page directory. -/
def st8 : ServerState :=
  ⟨[("old", ⟨"old", none, 0⟩), ("new", ⟨"new", none, 1700⟩)], [],
   [("old", ["page_1.png"]), ("new", ["page_1.png"])]⟩

/-- The binding invariant: every bound document path of every session is
a key of the document cache. -/
def CacheInv (st : ServerState) : Prop :=
  ∀ k s p, (k, s) ∈ st.sessions → s.current_pdf = some p →
    (alookup p st.pdf_cache).isSome = true

/-! ## Association list lemmas -/

theorem alookup_ainsert_self {β : Type} (k : String) (v : β)
    (l : List (String × β)) : alookup k (ainsert k v l) = some v := by
  induction l with
  | nil => simp [ainsert, alookup]
  | cons hd tl ih =>
    by_cases h : hd.1 = k
    · simp [ainsert, alookup, h]
    · simpa [ainsert, alookup, h] using ih

theorem alookup_ainsert_ne {β : Type} (k k' : String) (v : β)
    (l : List (String × β)) (h : k' ≠ k) :
    alookup k' (ainsert k v l) = alookup k' l := by
  induction l with
  | nil => simp [ainsert, alookup, Ne.symm h]
  | cons hd tl ih =>
    by_cases hh : hd.1 = k
    · simp [ainsert, alookup, hh, Ne.symm h]
    · simp [ainsert, alookup, hh, ih]

theorem alookup_isSome_ainsert {β : Type} (k k' : String) (v : β)
    (l : List (String × β)) (h : (alookup k' l).isSome = true) :
    (alookup k' (ainsert k v l)).isSome = true := by
  by_cases hk : k' = k
  · subst hk; rw [alookup_ainsert_self]; rfl
  · rwa [alookup_ainsert_ne k k' v l hk]

theorem mem_ainsert {β : Type} (k : String) (v : β) (l : List (String × β))
    (x : String × β) (h : x ∈ ainsert k v l) : x = (k, v) ∨ x ∈ l := by
  induction l with
  | nil => simpa [ainsert] using h
  | cons hd tl ih =>
    by_cases hh : hd.1 = k
    · simp only [ainsert, if_pos hh, List.mem_cons] at h
      rcases h with h | h
      · exact Or.inl h
      · exact Or.inr (List.mem_cons_of_mem hd h)
    · simp only [ainsert, if_neg hh, List.mem_cons] at h
      rcases h with h | h
      · exact Or.inr (h ▸ List.mem_cons_self hd tl)
      · rcases ih h with h' | h'
        · exact Or.inl h'
        · exact Or.inr (List.mem_cons_of_mem hd h')

theorem aremove_of_not_mem {β : Type} (k : String) (l : List (String × β))
    (h : k ∉ l.map Prod.fst) : aremove k l = l := by
  induction l with
  | nil => rfl
  | cons hd tl ih =>
    simp only [List.map_cons, List.mem_cons] at h
    push_neg at h
    simp [aremove, List.filter_cons, Ne.symm h.1]
    simpa [aremove] using ih h.2

theorem aremove_append {β : Type} (k : String) (a b : List (String × β)) :
    aremove k (a ++ b) = aremove k a ++ aremove k b := by
  simp [aremove, List.filter_append]

theorem aremove_cons_self {β : Type} (k : String) (v : β)
    (l : List (String × β)) : aremove k ((k, v) :: l) = aremove k l := by
  simp [aremove, List.filter_cons]

theorem aremove_cons_ne {β : Type} (k : String) (hd : String × β)
    (l : List (String × β)) (h : hd.1 ≠ k) :
    aremove k (hd :: l) = hd :: aremove k l := by
  simp [aremove, List.filter_cons, h]

theorem alookup_aremove_self {β : Type} (k : String) (l : List (String × β)) :
    alookup k (aremove k l) = none := by
  induction l with
  | nil => rfl
  | cons hd tl ih =>
    rcases hd with ⟨a, v⟩
    by_cases hh : a = k
    · subst hh; rw [aremove_cons_self]; exact ih
    · rw [aremove_cons_ne k (a, v) tl hh]
      simpa [alookup, hh] using ih

theorem alookup_aremove_ne {β : Type} (k k' : String) (l : List (String × β))
    (h : k' ≠ k) : alookup k' (aremove k l) = alookup k' l := by
  induction l with
  | nil => rfl
  | cons hd tl ih =>
    rcases hd with ⟨a, v⟩
    by_cases hh : a = k
    · subst hh
      rw [aremove_cons_self, ih]
      simp [alookup, Ne.symm h]
    · rw [aremove_cons_ne k (a, v) tl hh]
      by_cases hk : a = k'
      · simp [alookup, hk]
      · simp [alookup, hk, ih]

theorem alookup_eq_none_of_not_mem {β : Type} (k : String)
    (l : List (String × β)) (h : k ∉ l.map Prod.fst) : alookup k l = none := by
  induction l with
  | nil => rfl
  | cons hd tl ih =>
    simp only [List.map_cons, List.mem_cons] at h
    push_neg at h
    simpa [alookup, Ne.symm h.1] using ih h.2

theorem not_mem_of_alookup_eq_none {β : Type} (k : String)
    (l : List (String × β)) (h : alookup k l = none) : k ∉ l.map Prod.fst := by
  induction l with
  | nil => simp
  | cons hd tl ih =>
    by_cases hh : hd.1 = k
    · simp [alookup, hh] at h
    · simp only [alookup, if_neg hh] at h
      simp only [List.map_cons, List.mem_cons]
      push_neg
      exact ⟨Ne.symm hh, ih h⟩

/-! ## PageRenderer lemmas -/

/-- The natural-number rasterisation agrees with flooring the rational
magnification of line 93. -/
theorem pixDims_eq_floor (d : Nat × Nat) (q : String) :
    pixDims d q =
      ((⌊zoomFor q * (d.1 : ℚ)⌋).toNat, (⌊zoomFor q * (d.2 : ℚ)⌋).toNat) := by
  have h2 : ∀ n : ℕ, (⌊(2 : ℚ) * (n : ℚ)⌋).toNat = 2 * n := by
    intro n
    rw [show ((2 : ℚ) * (n : ℚ)) = (((2 * n : ℕ) : ℚ)) by push_cast; ring]
    rw [Int.floor_natCast]
    exact Int.toNat_natCast _
  have h32 : ∀ n : ℕ, (⌊(3 / 2 : ℚ) * (n : ℚ)⌋).toNat = 3 * n / 2 := by
    intro n
    rw [show ((3 / 2 : ℚ) * (n : ℚ)) = (((3 * n : ℕ) : ℚ)) / (((2 : ℕ) : ℚ)) by
      push_cast; ring]
    rw [Rat.floor_natCast_div_natCast]
    exact Int.toNat_natCast _
  unfold pixDims zoomFor
  by_cases h : q = "high"
  · simp [h, h2]
  · simp [h, h32]

/-- Rendering an in-range page (1-based) always succeeds and stamps the
requested page number into the result. -/
theorem render_page_ok (doc : PdfDoc) (n : Int) (q : String) (now : Int)
    (h1 : 1 ≤ n) (h2 : n ≤ (doc.page_count : Int)) :
    ∃ pd, render_page doc n q now = .ok pd ∧ pd.page_num = n := by
  unfold render_page loadPagePy
  have hidx : 0 ≤ n - 1 ∧ n - 1 < (doc.page_count : Int) := by omega
  rw [if_pos hidx]
  have hlt : (n - 1).toNat < doc.pageRects.length := by
    have ha := hidx.1
    have hb := hidx.2
    unfold PdfDoc.page_count at hb
    omega
  rw [List.getElem?_eq_getElem hlt]
  exact ⟨_, rfl, rfl⟩

/-- The preload loop, run with the true page count, never fails and
appends one entry per in-range page number, in request order. -/
theorem preloadLoop_spec (doc : PdfDoc) (sid q : String) (now : Int) :
    ∀ (ns : List Int) (acc : List PageEntry) (temp : List (String × List String)),
    ∃ l temp',
      preloadLoop doc doc.page_count sid q now ns acc temp = (.ok (acc ++ l), temp') ∧
      l.map (fun e => e.pageNum) =
        ns.filter (fun n => decide (1 ≤ n) && decide (n ≤ (doc.page_count : Int))) := by
  intro ns
  induction ns with
  | nil =>
    intro acc temp
    exact ⟨[], temp, by simp [preloadLoop], rfl⟩
  | cons n rest ih =>
    intro acc temp
    by_cases hn : 1 ≤ n ∧ n ≤ (doc.page_count : Int)
    · obtain ⟨pd, hpd, hnum⟩ := render_page_ok doc n q now hn.1 hn.2
      obtain ⟨l, temp', hrec, hmap⟩ :=
        ih (acc ++ [{ pageNum := pd.page_num, width := pd.width, height := pd.height,
                      imageUrl := "http://localhost:5000" ++
                        (save_page_image temp sid n).1,
                      timestamp := pd.timestamp }]) (save_page_image temp sid n).2
      refine ⟨{ pageNum := pd.page_num, width := pd.width, height := pd.height,
                imageUrl := "http://localhost:5000" ++ (save_page_image temp sid n).1,
                timestamp := pd.timestamp } :: l, temp', ?_, ?_⟩
      · unfold preloadLoop
        rw [if_pos hn, hpd]
        simpa using hrec
      · simp only [List.map_cons, hmap, List.filter_cons, hnum]
        have : (decide (1 ≤ n) && decide (n ≤ (doc.page_count : Int))) = true := by
          simp [hn.1, hn.2]
        rw [this]
        simp
    · obtain ⟨l, temp', hrec, hmap⟩ := ih acc temp
      refine ⟨l, temp', ?_, ?_⟩
      · unfold preloadLoop
        rw [if_neg hn]
        exact hrec
      · rw [List.filter_cons]
        have : (decide (1 ≤ n) && decide (n ≤ (doc.page_count : Int))) = false := by
          rcases not_and_or.mp hn with h | h <;> simp [h]
        rw [this, hmap]
        simp

/-- Rasterised dimensions of a nonempty page are nonzero. -/
theorem pixDims_pos (d : Nat × Nat) (q : String) (h1 : 1 ≤ d.1) (h2 : 1 ≤ d.2) :
    1 ≤ (pixDims d q).1 ∧ 1 ≤ (pixDims d q).2 := by
  unfold pixDims
  by_cases h : q = "high" <;> simp only [h, if_pos, if_neg, if_true, if_false] <;>
    constructor <;> omega

/-- Both tier bounding boxes are nonzero. -/
theorem targetSize_pos (q : String) : 1 ≤ targetSize q := by
  unfold targetSize
  split <;> norm_num

/-- The thumbnail step never exceeds the bounding box. -/
theorem thumbnailDims_le_target (w h t : Nat) (ht : 1 ≤ t) :
    (thumbnailDims w h t).1 ≤ t ∧ (thumbnailDims w h t).2 ≤ t := by
  unfold thumbnailDims
  by_cases h1 : t ≥ w ∧ t ≥ h
  · rw [if_pos h1]
    exact ⟨h1.1, h1.2⟩
  · rw [if_neg h1]
    by_cases h2 : h ≥ w
    · rw [if_pos h2]
      have hth : t < h := by omega
      have hmul : t * w ≤ t * h := Nat.mul_le_mul_left t h2
      have hdiv : t * w / h ≤ t * h / h := Nat.div_le_div_right hmul
      rw [Nat.mul_div_cancel t (by omega : 0 < h)] at hdiv
      exact ⟨Nat.max_le.mpr ⟨hdiv, ht⟩, le_refl t⟩
    · rw [if_neg h2]
      have htw : t < w := by omega
      have hmul : t * h ≤ t * w := Nat.mul_le_mul_left t (by omega)
      have hdiv : t * h / w ≤ t * w / w := Nat.div_le_div_right hmul
      rw [Nat.mul_div_cancel t (by omega : 0 < w)] at hdiv
      exact ⟨le_refl t, Nat.max_le.mpr ⟨hdiv, ht⟩⟩

/-- The thumbnail step never upscales. -/
theorem thumbnailDims_no_upscale (w h t : Nat) (hw : 1 ≤ w) (hh : 1 ≤ h) :
    (thumbnailDims w h t).1 ≤ w ∧ (thumbnailDims w h t).2 ≤ h := by
  unfold thumbnailDims
  by_cases h1 : t ≥ w ∧ t ≥ h
  · rw [if_pos h1]
    exact ⟨le_refl w, le_refl h⟩
  · rw [if_neg h1]
    by_cases h2 : h ≥ w
    · rw [if_pos h2]
      have hth : t < h := by omega
      have hmul : t * w ≤ h * w := Nat.mul_le_mul_right w (by omega)
      have hdiv : t * w / h ≤ h * w / h := Nat.div_le_div_right hmul
      rw [Nat.mul_div_cancel_left w (by omega : 0 < h)] at hdiv
      exact ⟨Nat.max_le.mpr ⟨hdiv, hw⟩, by omega⟩
    · rw [if_neg h2]
      have htw : t < w := by omega
      have hmul : t * h ≤ w * h := Nat.mul_le_mul_right h (by omega)
      have hdiv : t * h / w ≤ w * h / w := Nat.div_le_div_right hmul
      rw [Nat.mul_div_cancel_left h (by omega : 0 < w)] at hdiv
      exact ⟨by omega, Nat.max_le.mpr ⟨hdiv, hh⟩⟩

/-- The thumbnail step distorts the aspect ratio by less than one
rounding unit: the cross products of the output and input dimensions
differ by less than the larger input dimension. -/
theorem thumbnailDims_aspect (w h t : Nat) (hw : 1 ≤ w) (hh : 1 ≤ h)
    (ht : 1 ≤ t) :
    ((thumbnailDims w h t).1 : Int) * h - (w : Int) * (thumbnailDims w h t).2 <
        max w h ∧
    (w : Int) * (thumbnailDims w h t).2 - ((thumbnailDims w h t).1 : Int) * h <
        max w h := by
  have hmaxw : (w : Int) ≤ ((max w h : Nat) : Int) := by
    exact_mod_cast le_max_left w h
  have hmaxh : (h : Int) ≤ ((max w h : Nat) : Int) := by
    exact_mod_cast le_max_right w h
  have hmax1 : (1 : Int) ≤ ((max w h : Nat) : Int) := by
    exact_mod_cast le_max_of_le_left hw
  unfold thumbnailDims
  by_cases h1 : t ≥ w ∧ t ≥ h
  · rw [if_pos h1]
    constructor <;> · dsimp only; linarith [hmax1]
  · rw [if_neg h1]
    by_cases h2 : h ≥ w
    · rw [if_pos h2]
      have hth : t < h := by omega
      have hdm := Nat.div_add_mod (t * w) h
      have hmlt : (t * w) % h < h := Nat.mod_lt _ (by omega)
      have hcast : (h : Int) * ((t * w / h : Nat) : Int) +
          (((t * w) % h : Nat) : Int) = (t : Int) * (w : Int) := by
        exact_mod_cast hdm
      have hm : (((t * w) % h : Nat) : Int) < (h : Int) := by exact_mod_cast hmlt
      have hm0 : (0 : Int) ≤ (((t * w) % h : Nat) : Int) := Int.natCast_nonneg _
      dsimp only
      by_cases ha : 1 ≤ t * w / h
      · rw [Nat.max_eq_left ha]
        constructor <;> linarith [hcast, hm, hm0, hmaxh, hmax1]
      · have ha0 : t * w / h = 0 := Nat.lt_one_iff.mp (Nat.not_le.mp ha)
        have hmeq : (t * w) % h = t * w := by
          rw [ha0, Nat.mul_zero, Nat.zero_add] at hdm
          exact hdm
        have hlt : t * w < h := hmeq ▸ hmlt
        have hltI : (t : Int) * (w : Int) < (h : Int) := by exact_mod_cast hlt
        have hwt1 : 1 ≤ t * w := Nat.mul_pos ht hw
        have hwt1I : (1 : Int) ≤ (t : Int) * (w : Int) := by exact_mod_cast hwt1
        rw [ha0, Nat.max_eq_right (Nat.zero_le 1)]
        simp only [Nat.cast_one]
        constructor <;> linarith [hltI, hwt1I, hmaxh, hmax1]
    · rw [if_neg h2]
      have htw : t < w := by omega
      have hdm := Nat.div_add_mod (t * h) w
      have hmlt : (t * h) % w < w := Nat.mod_lt _ (by omega)
      have hcast : (w : Int) * ((t * h / w : Nat) : Int) +
          (((t * h) % w : Nat) : Int) = (t : Int) * (h : Int) := by
        exact_mod_cast hdm
      have hm : (((t * h) % w : Nat) : Int) < (w : Int) := by exact_mod_cast hmlt
      have hm0 : (0 : Int) ≤ (((t * h) % w : Nat) : Int) := Int.natCast_nonneg _
      dsimp only
      by_cases hb : 1 ≤ t * h / w
      · rw [Nat.max_eq_left hb]
        constructor <;> linarith [hcast, hm, hm0, hmaxw, hmax1]
      · have hb0 : t * h / w = 0 := Nat.lt_one_iff.mp (Nat.not_le.mp hb)
        have hmeq : (t * h) % w = t * h := by
          rw [hb0, Nat.mul_zero, Nat.zero_add] at hdm
          exact hdm
        have hlt : t * h < w := hmeq ▸ hmlt
        have hltI : (t : Int) * (h : Int) < (w : Int) := by exact_mod_cast hlt
        have hht1 : 1 ≤ t * h := Nat.mul_pos ht hh
        have hht1I : (1 : Int) ≤ (t : Int) * (h : Int) := by exact_mod_cast hht1
        rw [hb0, Nat.max_eq_right (Nat.zero_le 1)]
        simp only [Nat.cast_one]
        constructor <;> linarith [hltI, hht1I, hmaxw, hmax1]

/-! ## DocumentCache lemmas -/

/-- A cached path is returned as is, without touching the disk. -/
theorem load_pdf_of_hit (disk : String → DiskEntry)
    (cache : List (String × PdfInfoEntry)) (path : String) (info : PdfInfoEntry)
    (h : alookup path cache = some info) :
    load_pdf disk cache path = .ok (info, cache, false) := by
  unfold load_pdf
  rw [h]

/-- A successful load leaves its entry in the returned cache. -/
theorem load_pdf_ok_lookup (disk : String → DiskEntry)
    (cache : List (String × PdfInfoEntry)) (path : String) (info : PdfInfoEntry)
    (cache' : List (String × PdfInfoEntry)) (b : Bool)
    (h : load_pdf disk cache path = .ok (info, cache', b)) :
    alookup path cache' = some info := by
  unfold load_pdf at h
  split at h
  next info0 hc =>
    injection h with h1
    simp only [Prod.mk.injEq] at h1
    obtain ⟨rfl, rfl, -⟩ := h1
    exact hc
  next hc =>
    split at h
    · simp at h
    · simp at h
    · injection h with h1
      simp only [Prod.mk.injEq] at h1
      obtain ⟨rfl, rfl, -⟩ := h1
      exact alookup_ainsert_self _ _ _

/-- A successful load never drops cache entries. -/
theorem load_pdf_cache_mono (disk : String → DiskEntry)
    (cache : List (String × PdfInfoEntry)) (path : String) (info : PdfInfoEntry)
    (cache' : List (String × PdfInfoEntry)) (b : Bool)
    (h : load_pdf disk cache path = .ok (info, cache', b)) (q : String)
    (hq : (alookup q cache).isSome = true) : (alookup q cache').isSome = true := by
  unfold load_pdf at h
  split at h
  next info0 hc =>
    injection h with h1
    simp only [Prod.mk.injEq] at h1
    obtain ⟨-, rfl, -⟩ := h1
    exact hq
  next hc =>
    split at h
    · simp at h
    · simp at h
    · injection h with h1
      simp only [Prod.mk.injEq] at h1
      obtain ⟨-, rfl, -⟩ := h1
      exact alookup_isSome_ainsert _ _ _ _ hq

/-! ## CleanupScheduler lemmas -/

/-- With unique keys, a keyed membership determines the looked-up
value. -/
theorem alookup_of_mem_nodup {β : Type} (k : String) (v : β) :
    ∀ (l : List (String × β)), (l.map Prod.fst).Nodup → (k, v) ∈ l →
    alookup k l = some v := by
  intro l
  induction l with
  | nil => intro _ h; simp at h
  | cons hd tl ih =>
    intro hnd hmem
    rw [List.map_cons] at hnd
    obtain ⟨h1, h2⟩ := List.nodup_cons.mp hnd
    rcases List.mem_cons.mp hmem with h | h
    · rw [← h]
      simp [alookup]
    · have hk : hd.1 ≠ k := by
        intro he
        exact h1 (he ▸ List.mem_map_of_mem Prod.fst h)
      simp only [alookup, if_neg hk]
      exact ih h2 h

/-- A key absent from the directory table stays absent through the
sweep folds. -/
theorem rmExpiredFold_none (now : Int) :
    ∀ (l : List (String × Session)) (t : List (String × List String))
      (sid : String), alookup sid t = none →
      alookup sid (rmExpiredFold now l t) = none := by
  intro l
  induction l with
  | nil => intro t sid h; exact h
  | cons hd tl ih =>
    intro t sid h
    unfold rmExpiredFold at ih ⊢
    rw [List.foldl_cons]
    by_cases he : expired now hd.2
    · rw [if_pos he]
      by_cases hk : hd.1 = sid
      · exact ih _ _ (hk ▸ alookup_aremove_self hd.1 t)
      · exact ih _ _ ((alookup_aremove_ne hd.1 sid t (Ne.symm hk)).trans h)
    · rw [if_neg he]
      exact ih _ _ h

/-- The directory of an expired session present in the table is gone
after the sweep folds. -/
theorem rmExpiredFold_expired (now : Int) :
    ∀ (l : List (String × Session)) (t : List (String × List String))
      (sid : String) (sd : Session), (sid, sd) ∈ l → expired now sd = true →
      alookup sid (rmExpiredFold now l t) = none := by
  intro l
  induction l with
  | nil => intro t sid sd h; simp at h
  | cons hd tl ih =>
    intro t sid sd hmem he
    rcases List.mem_cons.mp hmem with h | h
    · unfold rmExpiredFold
      rw [List.foldl_cons, ← h]
      simp only [he, if_pos]
      exact rmExpiredFold_none now tl _ sid (alookup_aremove_self sid t)
    · unfold rmExpiredFold
      rw [List.foldl_cons]
      by_cases hx : expired now hd.2
      · rw [if_pos hx]; exact ih _ sid sd h he
      · rw [if_neg hx]; exact ih _ sid sd h he

/-- A key no expired table entry carries keeps its directory table
lookup through the sweep folds. -/
theorem rmExpiredFold_fresh (now : Int) :
    ∀ (l : List (String × Session)) (t : List (String × List String))
      (sid : String), (∀ p ∈ l, p.1 = sid → expired now p.2 = false) →
      alookup sid (rmExpiredFold now l t) = alookup sid t := by
  intro l
  induction l with
  | nil => intro t sid _; rfl
  | cons hd tl ih =>
    intro t sid hfresh
    unfold rmExpiredFold
    rw [List.foldl_cons]
    by_cases hx : expired now hd.2
    · rw [if_pos hx]
      have hk : hd.1 ≠ sid := by
        intro he
        have := hfresh hd (List.mem_cons_self hd tl) he
        rw [this] at hx
        exact Bool.noConfusion hx
      have h1 : alookup sid (rmExpiredFold now tl (aremove hd.1 t)) =
          alookup sid (aremove hd.1 t) :=
        ih _ sid (fun p hp hps => hfresh p (List.mem_cons_of_mem hd hp) hps)
      exact h1.trans (alookup_aremove_ne hd.1 sid t (Ne.symm hk))
    · rw [if_neg hx]
      exact ih _ sid (fun p hp hps => hfresh p (List.mem_cons_of_mem hd hp) hps)

/-- The loop of a failure-free sweep: with unique session keys, the
part of the table already scanned kept aside as `pre`, the loop keeps
exactly the non-expired records, applies the directory removals, and
never touches the document cache. -/
theorem cleanupGo_noFail_spec (now : Int) :
    ∀ (l pre : List (String × Session)) (st : ServerState),
    st.sessions = pre ++ l →
    ((pre ++ l).map Prod.fst).Nodup →
    (cleanupGo (fun _ => false) now l st).sessions =
        pre ++ l.filter (fun p => !expired now p.2) ∧
    (cleanupGo (fun _ => false) now l st).temp = rmExpiredFold now l st.temp ∧
    (cleanupGo (fun _ => false) now l st).pdf_cache = st.pdf_cache := by
  intro l
  induction l with
  | nil =>
    intro pre st hs _
    refine ⟨?_, rfl, rfl⟩
    simpa [cleanupGo] using hs
  | cons hd tl ih =>
    intro pre st hs hnd
    obtain ⟨sid, sd⟩ := hd
    have hmapnd : (pre.map Prod.fst).Nodup ∧ ((sid :: tl.map Prod.fst)).Nodup ∧
        (pre.map Prod.fst).Disjoint (sid :: tl.map Prod.fst) := by
      rw [← List.nodup_append]
      simpa using hnd
    have hsidpre : sid ∉ pre.map Prod.fst := by
      intro hmem
      exact hmapnd.2.2 hmem (List.mem_cons_self _ _)
    have hsidtl : sid ∉ tl.map Prod.fst := (List.nodup_cons.mp hmapnd.2.1).1
    have hnd' : ((pre ++ tl).map Prod.fst).Nodup := by
      rw [List.map_append, List.nodup_append]
      exact ⟨hmapnd.1, (List.nodup_cons.mp hmapnd.2.1).2,
        fun x hx hx' => hmapnd.2.2 hx (List.mem_cons_of_mem _ hx')⟩
    have hrm : aremove sid st.sessions = pre ++ tl := by
      rw [hs, aremove_append, aremove_cons_self,
        aremove_of_not_mem sid pre hsidpre, aremove_of_not_mem sid tl hsidtl]
    by_cases he : expired now sd
    · by_cases hdir : (alookup sid st.temp).isSome
      · have := ih pre
          { st with sessions := aremove sid st.sessions, temp := aremove sid st.temp }
          (by simpa using hrm) hnd'
        unfold cleanupGo
        rw [if_pos he, if_pos hdir, if_neg (by simp : ¬(false = true))]
        refine ⟨?_, ?_, this.2.2⟩
        · rw [this.1, List.filter_cons]
          simp [he]
        · rw [this.2.1]
          unfold rmExpiredFold
          rw [List.foldl_cons, if_pos he]
      · have := ih pre { st with sessions := aremove sid st.sessions }
          (by simpa using hrm) hnd'
        have htempid : aremove sid st.temp = st.temp :=
          aremove_of_not_mem sid st.temp
            (not_mem_of_alookup_eq_none sid st.temp
              (Option.not_isSome_iff_eq_none.mp hdir))
        unfold cleanupGo
        rw [if_pos he, if_neg hdir]
        refine ⟨?_, ?_, this.2.2⟩
        · rw [this.1, List.filter_cons]
          simp [he]
        · rw [this.2.1]
          unfold rmExpiredFold
          rw [List.foldl_cons, if_pos he, htempid]
    · have := ih (pre ++ [(sid, sd)]) st
        (by rw [hs]; simp) (by simpa using hnd)
      unfold cleanupGo
      rw [if_neg he]
      refine ⟨?_, ?_, this.2.2⟩
      · rw [this.1, List.filter_cons]
        simp [he]
      · rw [this.2.1]
        unfold rmExpiredFold
        rw [List.foldl_cons, if_neg he]

/-! ## Invariant preservation -/

/-- Membership after the in-place binding: a record either was already
in the table or is the found record now bound to `p`. -/
theorem mem_bindFirst (p : String) :
    ∀ (l : List (String × Session)) (x : String × Session),
    x ∈ bindFirst p l → x ∈ l ∨ x.2.current_pdf = some p := by
  intro l
  induction l with
  | nil => intro x h; simp [bindFirst] at h
  | cons hd tl ih =>
    obtain ⟨k, s⟩ := hd
    intro x h
    unfold bindFirst at h
    by_cases hs : s.sid ≠ ""
    · rw [if_pos hs] at h
      rcases List.mem_cons.mp h with he | hm
      · right
        rw [he]
      · exact Or.inl (List.mem_cons_of_mem _ hm)
    · rw [if_neg hs] at h
      rcases List.mem_cons.mp h with he | hm
      · exact Or.inl (he ▸ List.mem_cons_self _ _)
      · rcases ih x hm with h1 | h2
        · exact Or.inl (List.mem_cons_of_mem _ h1)
        · exact Or.inr h2

theorem cacheInv_connect (st : ServerState) (now : Int) (sid : String)
    (h : CacheInv st) : CacheInv (handle_connect st now sid).1 := by
  intro k s p hmem hcp
  simp only [handle_connect] at hmem
  rcases mem_ainsert sid ⟨sid, none, now⟩ st.sessions (k, s) hmem with he | hm
  · have hse : s = ⟨sid, none, now⟩ := ((Prod.mk.injEq _ _ _ _).mp he).2
    rw [hse] at hcp
    simp at hcp
  · exact h k s p hm hcp

theorem cacheInv_load (disk : String → DiskEntry) (st : ServerState) (now : Int)
    (pdfId : String) (h : CacheInv st) :
    CacheInv (handle_load_pdf disk st now pdfId).1 := by
  unfold handle_load_pdf
  dsimp only
  split
  · exact h
  · split
    · exact h
    next info cache' b heq =>
      intro k s p hmem hcp
      rcases mem_bindFirst _ st.sessions (k, s) hmem with hm | hbp
      · exact load_pdf_cache_mono disk st.pdf_cache _ info cache' b heq p
          (h k s p hm hcp)
      · rw [hcp] at hbp
        injection hbp with hpe
        subst hpe
        show (alookup ("pdfs/" ++ pdfId ++ ".pdf") cache').isSome = true
        rw [load_pdf_ok_lookup disk st.pdf_cache _ info cache' b heq]
        rfl

theorem cacheInv_request (disk : String → DiskEntry) (st : ServerState)
    (now : Int) (n : Int) (q : String) (h : CacheInv st) :
    CacheInv (handle_request_page disk st now n q).state := by
  unfold handle_request_page
  split
  · exact h
  · split
    · exact h
    · split
      · exact h
      next info cache' b heq =>
        split
        · intro k s p hmem hcp
          exact load_pdf_cache_mono disk st.pdf_cache _ info cache' b heq p
            (h k s p hmem hcp)
        · intro k s p hmem hcp
          exact load_pdf_cache_mono disk st.pdf_cache _ info cache' b heq p
            (h k s p hmem hcp)

theorem cacheInv_preload (disk : String → DiskEntry) (st : ServerState)
    (now : Int) (ns : List Int) (q : String) (h : CacheInv st) :
    CacheInv (handle_preload_pages disk st now ns q).state := by
  unfold handle_preload_pages
  split
  · exact h
  · split
    · exact h
    · split
      · exact h
      next info cache' b heq =>
        split
        · intro k s p hmem hcp
          exact load_pdf_cache_mono disk st.pdf_cache _ info cache' b heq p
            (h k s p hmem hcp)
        · intro k s p hmem hcp
          exact load_pdf_cache_mono disk st.pdf_cache _ info cache' b heq p
            (h k s p hmem hcp)

theorem cleanupGo_cache (f : String → Bool) (now : Int) :
    ∀ (l : List (String × Session)) (st : ServerState),
    (cleanupGo f now l st).pdf_cache = st.pdf_cache := by
  intro l
  induction l with
  | nil => intro st; rfl
  | cons hd tl ih =>
    intro st
    obtain ⟨sid, sd⟩ := hd
    unfold cleanupGo
    by_cases he : expired now sd
    · rw [if_pos he]
      by_cases hdir : (alookup sid st.temp).isSome
      · rw [if_pos hdir]
        by_cases hf : f sid
        · rw [if_pos hf]
        · rw [if_neg hf]
          exact ih _
      · rw [if_neg hdir]
        exact ih _
    · rw [if_neg he]
      exact ih _

theorem cleanupGo_sessions_sub (f : String → Bool) (now : Int) :
    ∀ (l : List (String × Session)) (st : ServerState) (x : String × Session),
    x ∈ (cleanupGo f now l st).sessions → x ∈ st.sessions := by
  intro l
  induction l with
  | nil => intro st x h; exact h
  | cons hd tl ih =>
    intro st x h
    obtain ⟨sid, sd⟩ := hd
    unfold cleanupGo at h
    by_cases he : expired now sd
    · rw [if_pos he] at h
      by_cases hdir : (alookup sid st.temp).isSome
      · rw [if_pos hdir] at h
        by_cases hf : f sid
        · rw [if_pos hf] at h
          exact h
        · rw [if_neg hf] at h
          have := ih _ x h
          exact List.mem_of_mem_filter this
      · rw [if_neg hdir] at h
        have := ih _ x h
        exact List.mem_of_mem_filter this
    · rw [if_neg he] at h
      exact ih _ x h

theorem cacheInv_cleanup (f : String → Bool) (now : Int) (st : ServerState)
    (h : CacheInv st) : CacheInv (cleanup_old_sessions f now st) := by
  intro k s p hmem hcp
  rw [show (cleanup_old_sessions f now st).pdf_cache = st.pdf_cache from
    cleanupGo_cache f now st.sessions st]
  exact h k s p (cleanupGo_sessions_sub f now st.sessions st (k, s) hmem) hcp

theorem cacheInv_step (disk : String → DiskEntry) (st : ServerState)
    (e : Event) (t : Int) (h : CacheInv st) : CacheInv (step disk st e t) := by
  cases e with
  | connect sid => exact cacheInv_connect st t sid h
  | loadPDF pdfId => exact cacheInv_load disk st t pdfId h
  | requestPage n q => exact cacheInv_request disk st t n q h
  | preloadPages ns q => exact cacheInv_preload disk st t ns q h
  | ping => exact h
  | cleanup f => exact cacheInv_cleanup f t st h

theorem cacheInv_run (disk : String → DiskEntry) :
    ∀ (evs : List (Event × Int)) (st : ServerState),
    CacheInv st → CacheInv (runEvents disk st evs) := by
  intro evs
  induction evs with
  | nil => intro st h; exact h
  | cons e rest ih =>
    intro st h
    unfold runEvents
    rw [List.foldl_cons]
    exact ih _ (cacheInv_step disk st e.1 e.2 h)

/-- A `pdfLoaded` failure response comes with the state returned
untouched: no session record, binding, cache entry or directory
changes. -/
theorem handle_load_pdf_err_keeps_state (disk : String → DiskEntry)
    (st st' : ServerState) (now : Int) (pdfId : String) (e : String)
    (h : handle_load_pdf disk st now pdfId = (st', .pdfLoadedErr e)) : st' = st := by
  unfold handle_load_pdf at h
  dsimp only at h
  split at h
  · injection h with h1 h2
    exact h1.symm
  · split at h
    · injection h with h1 h2
      exact h1.symm
    · injection h with h1 h2
      exact Response.noConfusion h2

/-- The empty starting state satisfies the binding invariant. -/
theorem cacheInv_init : CacheInv initState := by
  intro k s p hmem
  simp [initState] at hmem

/-! ## Claim theorems -/

/-- C1: the claim says an out-of-range page number on a bound document
yields a validation failure and the renderer is never invoked.  The
code has no validation: on the bound three-page sample document,
`requestPage 0` invokes the renderer, which (through the pymupdf
negative-index convention) renders the LAST page and emits a successful
`pageData` payload, and `requestPage 4` also invokes the renderer, the
emitted error being the caught renderer exception. -/
theorem requestPage_skips_validation :
    (handle_request_page sampleDisk sampleSt 10 0 "high").renderCalls = [0] ∧
    (handle_request_page sampleDisk sampleSt 10 0 "high").response =
      .pageData { pageNum := 0, width := 100, height := 120,
                  imageUrl := "http://localhost:5000/pages/s1/page_0.png",
                  imageBase64 := "base64:PNG:100x120", timestamp := 10 } ∧
    (handle_request_page sampleDisk sampleSt 10 4 "high").renderCalls = [4] ∧
    (handle_request_page sampleDisk sampleSt 10 4 "high").response =
      .pageDataErr "page not in document" :=
  ⟨rfl, rfl, rfl, rfl⟩

/-- C2: the claim says each event operates on the session of the
issuing connection, so the mutation of that session is insensitive to
other records in the table.  The code instead binds the FIRST session
found in the shared table: running `loadPDF` against a table holding
only session B binds B, while running it against the same table with a
record A inserted in front binds A and leaves B untouched, the emitted
response being identical in both runs. -/
theorem loadPdf_mutation_depends_on_other_sessions :
    alookup "B" (handle_load_pdf sampleDisk stateB 5 "sample").1.sessions =
      some ⟨"B", some samplePath, 0⟩ ∧
    alookup "B" (handle_load_pdf sampleDisk stateAB 5 "sample").1.sessions =
      some ⟨"B", none, 0⟩ ∧
    alookup "A" (handle_load_pdf sampleDisk stateAB 5 "sample").1.sessions =
      some ⟨"A", some samplePath, 0⟩ ∧
    (handle_load_pdf sampleDisk stateB 5 "sample").2 =
      (handle_load_pdf sampleDisk stateAB 5 "sample").2 :=
  ⟨rfl, rfl, rfl, rfl⟩

/-- C3: the claim says loadPDF, requestPage, preloadPages and ping all
refresh the last-activity timestamp, so a session active within the
idle window is never swept.  In the code no handler ever writes
`last_activity`: after connecting at time 0 and processing a load, a
page request, a preload and a ping up to time 1700, the timestamp still
reads 0, and the sweep at time 1801 removes the session even though it
processed a ping 101 seconds earlier, well inside the 1800-second
window. -/
theorem handlers_never_refresh_activity :
    (runEvents sampleDisk initState
      [(.connect "s1", 0), (.loadPDF "sample", 100), (.requestPage 1 "high", 200),
       (.preloadPages [1, 2] "medium", 300), (.ping, 1700)]).sessions.map
        (fun p => p.2.last_activity) = [0] ∧
    (runEvents sampleDisk initState
      [(.connect "s1", 0), (.loadPDF "sample", 100), (.requestPage 1 "high", 200),
       (.preloadPages [1, 2] "medium", 300), (.ping, 1700),
       (.cleanup (fun _ => false), 1801)]).sessions = [] :=
  ⟨rfl, rfl⟩

/-- C4: the claim says a failing directory deletion does not stop the
sweep from removing the other expired sessions.  The code wraps the
whole loop in one try/except, so when the deletion for the first
expired session E1 raises, the sweep ends at once and the equally
expired, deletable session E2 keeps both its record and its directory;
with no failure the same sweep removes both. -/
theorem sweep_aborts_on_first_failure :
    cleanup_old_sessions (fun s => s == "E1") 1801 st4 = st4 ∧
    cleanup_old_sessions (fun _ => false) 1801 st4 = ⟨[], [], []⟩ :=
  ⟨rfl, rfl⟩

/-- C7: loading an already cached path again, with the cache retained,
returns exactly the entry the first call produced, leaves the cache
untouched, and reports that the file was not opened or parsed (the
returned flag is `false`), so metadata and page count of the two
results coincide. -/
theorem load_pdf_second_call_is_cache_hit (disk : String → DiskEntry)
    (cache : List (String × PdfInfoEntry)) (path : String) (info : PdfInfoEntry)
    (cache' : List (String × PdfInfoEntry)) (b : Bool)
    (h : load_pdf disk cache path = .ok (info, cache', b)) :
    load_pdf disk cache' path = .ok (info, cache', false) :=
  load_pdf_of_hit disk cache' path info
    (load_pdf_ok_lookup disk cache path info cache' b h)

/-- C7 witness: a first parsing load of the sample document followed by
the cache hit. -/
theorem load_pdf_second_call_is_cache_hit_w :
    load_pdf sampleDisk [(samplePath, sampleInfo)] samplePath =
      .ok (sampleInfo, [(samplePath, sampleInfo)], false) :=
  load_pdf_second_call_is_cache_hit sampleDisk [] samplePath sampleInfo
    [(samplePath, sampleInfo)] true rfl

/-- C10: an entry of a `pagesPreloaded` response carries exactly the
fields pageNum, width, height, imageUrl and timestamp and no
imageBase64 field, while a successful `pageData` payload carries
exactly those plus imageBase64, so preloaded bytes are reachable only
through the returned url. -/
theorem preload_entries_have_no_inline_base64 :
    (∀ (disk : String → DiskEntry) (st : ServerState) (now : Int)
       (ns : List Int) (q : String) (l : List PageEntry),
       (handle_preload_pages disk st now ns q).response = .pagesPreloaded l →
       ∀ e ∈ l, (pageEntryEmit e).map Prod.fst =
         ["pageNum", "width", "height", "imageUrl", "timestamp"]) ∧
    (∀ e : PageEntry, "imageBase64" ∉ (pageEntryEmit e).map Prod.fst) ∧
    (∀ p : PagePayload, (pageDataEmit p).map Prod.fst =
       ["pageNum", "width", "height", "imageUrl", "imageBase64", "timestamp"]) := by
  refine ⟨fun _ _ _ _ _ _ _ e _ => ?_, fun e => ?_, fun p => ?_⟩
  · rfl
  · simp [pageEntryEmit]
  · rfl

/-- C10 witness: the field lists at a concrete preloaded entry and a
concrete page payload. -/
theorem preload_entries_have_no_inline_base64_w :
    (pageEntryEmit samplePageEntry).map Prod.fst =
      ["pageNum", "width", "height", "imageUrl", "timestamp"] ∧
    "imageBase64" ∉ (pageEntryEmit samplePageEntry).map Prod.fst ∧
    (pageDataEmit samplePagePayload).map Prod.fst =
      ["pageNum", "width", "height", "imageUrl", "imageBase64", "timestamp"] :=
  ⟨preload_entries_have_no_inline_base64.1 sampleDisk sampleSt 10 [1] "medium"
      [samplePageEntry] rfl samplePageEntry (List.mem_singleton.mpr rfl),
   preload_entries_have_no_inline_base64.2.1 samplePageEntry,
   preload_entries_have_no_inline_base64.2.2 samplePagePayload⟩

/-- C5: a preload over a mixed list of page numbers against the bound
cached document emits a `pagesPreloaded` response whose entries are
exactly the requested numbers inside `[1, totalPages]`, in request
order, with no per-page error entries for the skipped ones. -/
theorem preload_returns_exactly_valid_pages
    (disk : String → DiskEntry) (st : ServerState) (now : Int) (ns : List Int)
    (q : String) (sd : Session) (path : String) (info : PdfInfoEntry)
    (hfs : firstSession st.sessions = some sd)
    (hcp : sd.current_pdf = some path)
    (hc : alookup path st.pdf_cache = some info)
    (htp : info.total_pages = info.doc.page_count) :
    ∃ l, (handle_preload_pages disk st now ns q).response = .pagesPreloaded l ∧
      l.map (fun e => e.pageNum) =
        ns.filter (fun n => decide (1 ≤ n) && decide (n ≤ (info.total_pages : Int))) := by
  obtain ⟨l, temp', hrec, hmap⟩ :=
    preloadLoop_spec info.doc sd.sid q now ns [] st.temp
  rw [← htp] at hrec hmap
  unfold handle_preload_pages
  simp only [hfs, hcp, load_pdf_of_hit disk st.pdf_cache path info hc, hrec,
    List.nil_append]
  exact ⟨l, rfl, hmap⟩

/-- C5 witness: preloading pages [2, 0, 5, 1, -3] of the bound
three-page sample document. -/
theorem preload_returns_exactly_valid_pages_w :
    ∃ l, (handle_preload_pages sampleDisk sampleSt 10 [2, 0, 5, 1, -3]
            "medium").response = .pagesPreloaded l ∧
      l.map (fun e => e.pageNum) =
        [(2 : Int), 0, 5, 1, -3].filter
          (fun n => decide (1 ≤ n) && decide (n ≤ (sampleInfo.total_pages : Int))) :=
  preload_returns_exactly_valid_pages sampleDisk sampleSt 10 [2, 0, 5, 1, -3]
    "medium" ⟨"s1", some samplePath, 0⟩ samplePath sampleInfo rfl rfl rfl rfl

/-- C8: a failure-free sweep over a table with unique session keys
removes exactly the sessions whose last activity is more than 30
minutes old, deletes the page directory of each removed session, and
leaves the record and the directory of every session active within the
window unchanged (and never touches the document cache). -/
theorem sweep_removes_exactly_idle (now : Int) (st : ServerState)
    (hnd : (st.sessions.map Prod.fst).Nodup) :
    (cleanup_old_sessions (fun _ => false) now st).sessions =
        st.sessions.filter (fun p => !expired now p.2) ∧
    (∀ sid sd, (sid, sd) ∈ st.sessions → expired now sd = true →
        alookup sid (cleanup_old_sessions (fun _ => false) now st).temp = none) ∧
    (∀ sid sd, (sid, sd) ∈ st.sessions → expired now sd = false →
        alookup sid (cleanup_old_sessions (fun _ => false) now st).temp =
          alookup sid st.temp) ∧
    (cleanup_old_sessions (fun _ => false) now st).pdf_cache = st.pdf_cache := by
  have hspec := cleanupGo_noFail_spec now st.sessions [] st (by simp)
    (by simpa using hnd)
  unfold cleanup_old_sessions
  refine ⟨by simpa using hspec.1, ?_, ?_, hspec.2.2⟩
  · intro sid sd hmem he
    rw [hspec.2.1]
    exact rmExpiredFold_expired now st.sessions st.temp sid sd hmem he
  · intro sid sd hmem he
    rw [hspec.2.1]
    apply rmExpiredFold_fresh
    intro p hp hpk
    have hpe : (sid, p.2) = p := by
      rw [← hpk]
    have h1 : alookup sid st.sessions = some sd :=
      alookup_of_mem_nodup sid sd st.sessions hnd hmem
    have h2 : alookup sid st.sessions = some p.2 :=
      alookup_of_mem_nodup sid p.2 st.sessions hnd (by rw [hpe]; exact hp)
    rw [h1] at h2
    injection h2 with h3
    rw [← h3]
    exact he

/-- C8 witness: a sweep at time 1801 over an idle session and an active
one. -/
theorem sweep_removes_exactly_idle_w :
    (cleanup_old_sessions (fun _ => false) 1801 st8).sessions =
        st8.sessions.filter (fun p => !expired 1801 p.2) ∧
    alookup "old" (cleanup_old_sessions (fun _ => false) 1801 st8).temp = none ∧
    alookup "new" (cleanup_old_sessions (fun _ => false) 1801 st8).temp =
        alookup "new" st8.temp ∧
    (cleanup_old_sessions (fun _ => false) 1801 st8).pdf_cache = st8.pdf_cache := by
  have h := sweep_removes_exactly_idle 1801 st8 (by decide)
  exact ⟨h.1,
    h.2.1 "old" ⟨"old", none, 0⟩ (by decide) (by decide),
    h.2.2.1 "new" ⟨"new", none, 1700⟩ (by decide) (by decide),
    h.2.2.2⟩

/-- C6: along every event trace from process start, every session whose
bound document path is set has that path present in the document cache;
and a failing loadPDF returns the state unchanged (no binding) together
with the failure payload. -/
theorem bound_paths_always_cached :
    (∀ (disk : String → DiskEntry) (evs : List (Event × Int)),
      CacheInv (runEvents disk initState evs)) ∧
    (∀ (disk : String → DiskEntry) (st st' : ServerState) (now : Int)
       (pdfId : String) (e : String),
       handle_load_pdf disk st now pdfId = (st', .pdfLoadedErr e) → st' = st) :=
  ⟨fun disk evs => cacheInv_run disk evs initState cacheInv_init,
   handle_load_pdf_err_keeps_state⟩

/-- C6 witness: after connecting and loading the sample document the
bound path is cached, and a load of a missing id fails keeping the
state. -/
theorem bound_paths_always_cached_w :
    (alookup samplePath
      (runEvents sampleDisk initState
        [(.connect "s1", 0), (.loadPDF "sample", 1)]).pdf_cache).isSome = true ∧
    sampleSt = sampleSt :=
  ⟨bound_paths_always_cached.1 sampleDisk [(.connect "s1", 0), (.loadPDF "sample", 1)]
      "s1" ⟨"s1", some samplePath, 0⟩ samplePath (by decide) rfl,
   bound_paths_always_cached.2 sampleDisk sampleSt sampleSt 0 "missing"
      "PDF file not found" rfl⟩

/-- C9: every successful render of a page with nonzero point dimensions
follows the quality policy: the magnification is 2.0 for quality high
with a 1024 bounding box and 1.5 with a 768 box for every other
quality; the output is the thumbnail of the rasterised bitmap, so
neither dimension exceeds the bounding box, neither dimension exceeds
the rasterised size (no upscaling), and the aspect ratio is preserved
up to one rounding unit. -/
theorem render_quality_policy (doc : PdfDoc) (n : Int) (q : String) (now : Int)
    (rp : RenderedPage) (d : Nat × Nat)
    (hp : loadPagePy doc (n - 1) = some d)
    (h : render_page doc n q now = .ok rp)
    (hd1 : 1 ≤ d.1) (hd2 : 1 ≤ d.2) :
    zoomFor "high" = 2 ∧ targetSize "high" = 1024 ∧
    (q ≠ "high" → zoomFor q = 3 / 2 ∧ targetSize q = 768) ∧
    (rp.width, rp.height) =
      thumbnailDims (pixDims d q).1 (pixDims d q).2 (targetSize q) ∧
    pixDims d q =
      ((⌊zoomFor q * (d.1 : ℚ)⌋).toNat, (⌊zoomFor q * (d.2 : ℚ)⌋).toNat) ∧
    rp.width ≤ targetSize q ∧ rp.height ≤ targetSize q ∧
    rp.width ≤ (pixDims d q).1 ∧ rp.height ≤ (pixDims d q).2 ∧
    (rp.width : Int) * ((pixDims d q).2 : Int) -
        ((pixDims d q).1 : Int) * (rp.height : Int) <
      ((max (pixDims d q).1 (pixDims d q).2 : Nat) : Int) ∧
    ((pixDims d q).1 : Int) * (rp.height : Int) -
        (rp.width : Int) * ((pixDims d q).2 : Int) <
      ((max (pixDims d q).1 (pixDims d q).2 : Nat) : Int) := by
  have hpix := pixDims_pos d q hd1 hd2
  have hts := targetSize_pos q
  unfold render_page at h
  simp only [hp] at h
  injection h with h2
  subst h2
  dsimp only
  refine ⟨rfl, rfl, ?_, rfl, pixDims_eq_floor d q, ?_, ?_, ?_, ?_, ?_, ?_⟩
  · intro hq
    unfold zoomFor targetSize
    rw [if_neg hq, if_neg hq]
    exact ⟨rfl, rfl⟩
  · exact (thumbnailDims_le_target (pixDims d q).1 (pixDims d q).2
      (targetSize q) hts).1
  · exact (thumbnailDims_le_target (pixDims d q).1 (pixDims d q).2
      (targetSize q) hts).2
  · exact (thumbnailDims_no_upscale (pixDims d q).1 (pixDims d q).2
      (targetSize q) hpix.1 hpix.2).1
  · exact (thumbnailDims_no_upscale (pixDims d q).1 (pixDims d q).2
      (targetSize q) hpix.1 hpix.2).2
  · exact (thumbnailDims_aspect (pixDims d q).1 (pixDims d q).2
      (targetSize q) hpix.1 hpix.2 hts).1
  · exact (thumbnailDims_aspect (pixDims d q).1 (pixDims d q).2
      (targetSize q) hpix.1 hpix.2 hts).2

/-- C9 witness: page 1 of the sample document (100 by 200 points)
rendered at quality high. -/
theorem render_quality_policy_w :
    zoomFor "high" = 2 ∧ targetSize "high" = 1024 ∧
    ("high" ≠ "high" → zoomFor "high" = 3 / 2 ∧ targetSize "high" = 768) ∧
    (sampleRendered.width, sampleRendered.height) =
      thumbnailDims (pixDims (100, 200) "high").1 (pixDims (100, 200) "high").2
        (targetSize "high") ∧
    pixDims (100, 200) "high" =
      ((⌊zoomFor "high" * (((100, 200) : Nat × Nat).1 : ℚ)⌋).toNat,
       (⌊zoomFor "high" * (((100, 200) : Nat × Nat).2 : ℚ)⌋).toNat) ∧
    sampleRendered.width ≤ targetSize "high" ∧
    sampleRendered.height ≤ targetSize "high" ∧
    sampleRendered.width ≤ (pixDims (100, 200) "high").1 ∧
    sampleRendered.height ≤ (pixDims (100, 200) "high").2 ∧
    (sampleRendered.width : Int) * ((pixDims (100, 200) "high").2 : Int) -
        ((pixDims (100, 200) "high").1 : Int) * (sampleRendered.height : Int) <
      ((max (pixDims (100, 200) "high").1 (pixDims (100, 200) "high").2 : Nat) : Int) ∧
    ((pixDims (100, 200) "high").1 : Int) * (sampleRendered.height : Int) -
        (sampleRendered.width : Int) * ((pixDims (100, 200) "high").2 : Int) <
      ((max (pixDims (100, 200) "high").1 (pixDims (100, 200) "high").2 : Nat) : Int) :=
  render_quality_policy sampleDoc 1 "high" 0 sampleRendered (100, 200) rfl rfl
    (by decide) (by decide)

end PdfViewer
